import Mathlib

set_option maxHeartbeats 1000000

/-! Verification of the word-classification program `src/thetri.py`.

The program keeps a JSON document (a Python dict) whose keys are bucket
names and whose values are, normally, lists of words.  The bucket
"MotsNonTriés" holds the unclassified words; `trier_les_mots` moves one
word from it into a chosen category bucket and saves the document to a
GitHub gist; `voir_mots_tries` computes summary counts; `fetch_gist_data`
and `update_gist_data` are the remote load/save calls.

The embedding below is shallow: Python dicts become insertion-ordered
association lists, in-place mutation becomes explicit state passing, and
an uncaught Python exception becomes the value `none`. -/

/-- A Python value as it can appear as a bucket value of the document.
Word lists are lists of strings.  A dict value is modelled by its key
list: the program only ever asks a dict value for membership, truthiness,
length and its `isinstance`, never for its stored values. -/
inductive PyVal where
  | list (xs : List String)
  | dict (keys : List String)
  | str (s : String)
  | num (n : Int)
  | bool (b : Bool)
  | null
deriving DecidableEq

/-- The document: a Python dict from bucket names to values, modelled as
an insertion-ordered association list. -/
abbrev Doc := List (String × PyVal)

/-- Python `d.get(k)` / the lookup part of `d[k]`: the value stored under
the first matching key. -/
def getKey {α : Type} : List (String × α) → String → Option α
  | [], _ => none
  | (k, v) :: rest, key => if k = key then some v else getKey rest key

/-- Python `d[k] = v`: replace the value of an existing key in place,
otherwise append a new entry at the end. -/
def setKey {α : Type} : List (String × α) → String → α → List (String × α)
  | [], key, val => [(key, val)]
  | (k, v) :: rest, key, val =>
    if k = key then (k, val) :: rest else (k, v) :: setKey rest key val

/-- Python truthiness, as used by `if not mots_non_tries`. -/
def pyTruthy : PyVal → Bool
  | .list xs => !xs.isEmpty
  | .dict ks => !ks.isEmpty
  | .str s => !s.isEmpty
  | .num n => decide (n ≠ 0)
  | .bool b => b
  | .null => false

/-- Whether `ns` occurs as a leading run of `hs` (helper for Python's
substring test). -/
def startsWithChars : List Char → List Char → Bool
  | [], _ => true
  | _ :: _, [] => false
  | n :: ns, h :: hs => decide (n = h) && startsWithChars ns hs

/-- Python's `needle in hay` on strings: substring containment. -/
def containsSub (needle : List Char) : List Char → Bool
  | [] => startsWithChars needle []
  | h :: hs => startsWithChars needle (h :: hs) || containsSub needle hs

/-- Python's `x in v`: membership for lists, key membership for dicts,
substring for strings; `none` models the TypeError raised on
non-iterable values. -/
def pyIn (x : String) : PyVal → Option Bool
  | .list xs => some (decide (x ∈ xs))
  | .dict ks => some (decide (x ∈ ks))
  | .str s => some (containsSub x.data s.data)
  | .num _ => none
  | .bool _ => none
  | .null => none

/-- Python's `v.remove(x)`: lists only, removes the first occurrence,
raises ValueError (`none`) when `x` is absent, AttributeError (`none`)
on every other shape. -/
def pyRemove (v : PyVal) (x : String) : Option PyVal :=
  match v with
  | .list xs => if x ∈ xs then some (.list (xs.erase x)) else none
  | _ => none

/-- Python's `v.append(x)`: lists only; AttributeError (`none`) on every
other shape. -/
def pyAppend (v : PyVal) (x : String) : Option PyVal :=
  match v with
  | .list xs => some (.list (xs ++ [x]))
  | _ => none

/-- Python's `len(v)`; `none` models the TypeError on numbers, booleans
and None. -/
def pyLen : PyVal → Option Nat
  | .list xs => some xs.length
  | .dict ks => some ks.length
  | .str s => some s.length
  | _ => none

/-- The fixed category set: the keys of `CATEGORIES` (src/thetri.py:16-21). -/
def CATEGORIES : List String := ["Classique", "Torride", "Géographie", "Rejeté"]

/-- The classification transition of `trier_les_mots`
(src/thetri.py:110-151), with the word and destination chosen in the UI
passed as parameters.  The result `none` models an uncaught Python
exception.  On `some (d, rep)`, `d` is the in-memory document afterwards
and `rep` is what is reported to the user: `none` when no move happened
(so no save was attempted), `some b` when the word was moved and the
remote save returned `b`.  `save_ok` is the outcome of
`update_gist_data`, which the in-memory document does not depend on. -/
def trier_les_mots (data : Doc) (mot_a_trier categorie : String) (save_ok : Bool) :
    Option (Doc × Option Bool) :=
  match getKey data "MotsNonTriés" with
  | none => some (data, none)
  | some v =>
    if pyTruthy v = false then some (data, none)
    else
      match pyIn mot_a_trier v with
      | none => none
      | some false => some (data, none)
      | some true =>
        match pyRemove v mot_a_trier with
        | none => none
        | some v2 =>
          let data1 := setKey data "MotsNonTriés" v2
          let data2 :=
            match getKey data1 categorie with
            | none => setKey data1 categorie (PyVal.list [])
            | some _ => data1
          let data3 :=
            match getKey data2 categorie with
            | some (PyVal.dict _) => setKey data2 categorie (PyVal.list [])
            | _ => data2
          match getKey data3 categorie with
          | none => none
          | some av =>
            match pyAppend av mot_a_trier with
            | none => none
            | some av2 => some (setKey data3 categorie av2, some save_ok)

/-- The summary computed by `voir_mots_tries` (src/thetri.py:158-167):
unsorted count, classified count, total.  The classified count iterates
over the fixed `CATEGORIES` keys and skips values that are not lists.
The result `none` models a TypeError from `len` on the unsorted value. -/
def voir_mots_tries (data : Doc) : Option (Nat × Nat × Nat) :=
  match pyLen ((getKey data "MotsNonTriés").getD (PyVal.list [])) with
  | none => none
  | some mots_non_tries =>
    let total_tries :=
      (CATEGORIES.map fun cat =>
        match (getKey data cat).getD (PyVal.list []) with
        | PyVal.list xs => xs.length
        | _ => 0).sum
    some (mots_non_tries, total_tries, mots_non_tries + total_tries)

/-- Following the claim's words, for comparison with the code: the sum of
the lengths of all non-unsorted buckets of the document whose value is a
sequence. -/
def spec_classified_count (data : Doc) : Nat :=
  (data.map fun p =>
    if p.1 = "MotsNonTriés" then 0
    else
      match p.2 with
      | PyVal.list xs => xs.length
      | _ => 0).sum

/-- The classified count as the code computes it: only the four fixed
category buckets contribute, and only when their value is a list. -/
def classified_count_fixed (data : Doc) : Nat :=
  (CATEGORIES.map fun cat =>
    match getKey data cat with
    | some (PyVal.list xs) => xs.length
    | _ => 0).sum

/-- The words a bucket value contributes to the document's word multiset. -/
def bucketWords : PyVal → List String
  | .list xs => xs
  | _ => []

/-- The multiset union of all bucket contents of the document. -/
def allWords (d : Doc) : Multiset String :=
  (d.map fun p => ((bucketWords p.2 : List String) : Multiset String)).sum

/-- Unicode whitespace as Python's `str.strip` removes it. -/
def isPyWhitespace (c : Char) : Bool :=
  let n := c.toNat
  decide (n = 0x20 ∨ (0x9 ≤ n ∧ n ≤ 0xD) ∨ (0x1C ≤ n ∧ n ≤ 0x1F) ∨ n = 0x85 ∨
    n = 0xA0 ∨ n = 0x1680 ∨ (0x2000 ≤ n ∧ n ≤ 0x200A) ∨ n = 0x2028 ∨ n = 0x2029 ∨
    n = 0x202F ∨ n = 0x205F ∨ n = 0x3000)

/-- Drop leading whitespace characters. -/
def dropLeadingWs : List Char → List Char
  | [] => []
  | c :: rest => if isPyWhitespace c then dropLeadingWs rest else c :: rest

/-- Python `content.strip()`. -/
def pyStrip (s : List Char) : List Char :=
  (dropLeadingWs (dropLeadingWs s).reverse).reverse

/-- The cleaning step of `fetch_gist_data` (src/thetri.py:48-51):
`strip()` the content, then drop one leading byte-order mark. -/
def clean_content (content : List Char) : List Char :=
  let stripped := pyStrip content
  match stripped with
  | c :: rest => if c = '\uFEFF' then rest else c :: rest
  | [] => []

/-- Following the spec's words, for comparison with the code: the cleaned
form of the content after also normalizing non-breaking spaces to regular
spaces. -/
def spec_cleaned (content : List Char) : List Char :=
  (clean_content content).map fun c => if c = '\u00A0' then ' ' else c

/-- JSON inter-token whitespace (RFC 8259), as accepted by `json.loads`. -/
def jsonWs (c : Char) : Bool :=
  c == ' ' || c == '\t' || c == '\n' || c == '\r'

/-- Skip JSON whitespace. -/
def skipWs : List Char → List Char
  | [] => []
  | c :: rest => if jsonWs c then skipWs rest else c :: rest

/-- Consume a JSON string body after the opening quote (simple escapes
only; the program's documents use none). -/
def parseStringBody : List Char → Option (List Char)
  | [] => none
  | '"' :: rest => some rest
  | '\\' :: c :: rest =>
    if c = '"' ∨ c = '\\' ∨ c = '/' ∨ c = 'b' ∨ c = 'f' ∨ c = 'n' ∨ c = 'r' ∨ c = 't'
    then parseStringBody rest
    else none
  | c :: rest => if c = '\\' then none else parseStringBody rest

/-- Drop a run of digits. -/
def dropDigits : List Char → List Char
  | c :: rest => if c.isDigit then dropDigits rest else c :: rest
  | [] => []

/-- Consume one or more digits. -/
def parseDigits : List Char → Option (List Char)
  | c :: rest => if c.isDigit then some (dropDigits rest) else none
  | [] => none

/-- Consume the optional exponent part of a JSON number. -/
def parseExp (s : List Char) : Option (List Char) :=
  match s with
  | c :: rest =>
    if c = 'e' ∨ c = 'E' then
      let rest2 :=
        match rest with
        | '+' :: r => r
        | '-' :: r => r
        | _ => rest
      parseDigits rest2
    else some s
  | [] => some []

/-- Consume a JSON number (permissive about leading zeros, which the
program's documents never contain). -/
def parseNumber (s : List Char) : Option (List Char) :=
  let s1 :=
    match s with
    | '-' :: rest => rest
    | _ => s
  match parseDigits s1 with
  | none => none
  | some s2 =>
    match s2 with
    | '.' :: rest =>
      match parseDigits rest with
      | none => none
      | some s3 => parseExp s3
    | _ => parseExp s2

mutual

/-- Accept one JSON value, returning the unconsumed rest. -/
def parseValue : Nat → List Char → Option (List Char)
  | 0, _ => none
  | fuel + 1, s =>
    match skipWs s with
    | [] => none
    | c :: rest =>
      if c = '"' then parseStringBody rest
      else if c = '{' then parseMembers fuel rest
      else if c = '[' then parseElements fuel rest
      else if c = 't' then
        match rest with
        | 'r' :: 'u' :: 'e' :: r => some r
        | _ => none
      else if c = 'f' then
        match rest with
        | 'a' :: 'l' :: 's' :: 'e' :: r => some r
        | _ => none
      else if c = 'n' then
        match rest with
        | 'u' :: 'l' :: 'l' :: r => some r
        | _ => none
      else if c = '-' ∨ c.isDigit then parseNumber (c :: rest)
      else none

/-- Accept the members of a JSON object after the opening brace. -/
def parseMembers : Nat → List Char → Option (List Char)
  | 0, _ => none
  | fuel + 1, s =>
    match skipWs s with
    | '}' :: rest => some rest
    | s1 =>
      match parsePair fuel s1 with
      | none => none
      | some r => parseMembersTail fuel r

/-- Accept further `, "key": value` members up to the closing brace. -/
def parseMembersTail : Nat → List Char → Option (List Char)
  | 0, _ => none
  | fuel + 1, s =>
    match skipWs s with
    | '}' :: rest => some rest
    | ',' :: rest =>
      match parsePair fuel rest with
      | none => none
      | some r => parseMembersTail fuel r
    | _ => none

/-- Accept one `"key": value` member. -/
def parsePair : Nat → List Char → Option (List Char)
  | 0, _ => none
  | fuel + 1, s =>
    match skipWs s with
    | '"' :: rest =>
      match parseStringBody rest with
      | none => none
      | some r =>
        match skipWs r with
        | ':' :: r2 => parseValue fuel r2
        | _ => none
    | _ => none

/-- Accept the elements of a JSON array after the opening bracket. -/
def parseElements : Nat → List Char → Option (List Char)
  | 0, _ => none
  | fuel + 1, s =>
    match skipWs s with
    | ']' :: rest => some rest
    | s1 =>
      match parseValue fuel s1 with
      | none => none
      | some r => parseElementsTail fuel r

/-- Accept further `, value` elements up to the closing bracket. -/
def parseElementsTail : Nat → List Char → Option (List Char)
  | 0, _ => none
  | fuel + 1, s =>
    match skipWs s with
    | ']' :: rest => some rest
    | ',' :: rest =>
      match parseValue fuel rest with
      | none => none
      | some r => parseElementsTail fuel r
    | _ => none

end

/-- Acceptance model of Python's `json.loads`: the cleaned content parses
as one JSON value followed only by whitespace.  The fuel bound is
generous; every recursive step consumes input. -/
def json_valid (s : List Char) : Bool :=
  match parseValue (2 * s.length + 2) s with
  | some rest => (skipWs rest).isEmpty
  | none => false

/-- The remote side of one fetch: either the HTTP request fails
(`requests.exceptions.RequestException`) or it yields the gist's file
mapping from file names to contents. -/
inductive RemoteResp where
  | httpError
  | ok (files : List (String × List Char))
deriving DecidableEq

/-- Which exit `fetch_gist_data` takes: the configuration error, the
transport error, the missing-file error, the JSON parse error, or a
successful parse of the cleaned content. -/
inductive FetchResult where
  | configMissing
  | transportError
  | fileMissing
  | parseError
  | parsed (cleaned : List Char)
deriving DecidableEq

/-- The gist file the program reads and writes (src/thetri.py:13). -/
def GIST_FILENAME : String := "mots.json"

/-- `fetch_gist_data` (src/thetri.py:23-63).  The configured secrets
default to the empty string when absent (src/thetri.py:11-12), so an
absent identifier or token is the empty string; the check precedes any
remote interaction. -/
def fetch_gist_data (gist_id github_token : String) (response : RemoteResp) : FetchResult :=
  if gist_id = "" ∨ github_token = "" then FetchResult.configMissing
  else
    match response with
    | RemoteResp.httpError => FetchResult.transportError
    | RemoteResp.ok files =>
      match getKey files GIST_FILENAME with
      | none => FetchResult.fileMissing
      | some content =>
        let cleaned := clean_content content
        if json_valid cleaned then FetchResult.parsed cleaned else FetchResult.parseError

/-- `update_gist_data` (src/thetri.py:65-90): returns False without any
remote interaction when the identifier or token is absent, otherwise the
outcome of the PATCH call, modelled by `patch_ok`. -/
def update_gist_data (gist_id github_token : String) (data : Doc) (patch_ok : Bool) : Bool :=
  if gist_id = "" ∨ github_token = "" then false
  else patch_ok

theorem getKey_setKey_self {α : Type} (d : List (String × α)) (k : String) (v : α) :
    getKey (setKey d k v) k = some v := by
  induction d with
  | nil => simp [getKey, setKey]
  | cons p rest ih =>
    obtain ⟨a, b⟩ := p
    by_cases h : a = k
    · simp [setKey, getKey, h]
    · simp [setKey, getKey, h, ih]

theorem getKey_setKey_ne {α : Type} (d : List (String × α)) (k k' : String) (v : α)
    (h : k' ≠ k) : getKey (setKey d k v) k' = getKey d k' := by
  induction d with
  | nil => simp [getKey, setKey, Ne.symm h]
  | cons p rest ih =>
    obtain ⟨a, b⟩ := p
    by_cases ha : a = k
    · subst ha
      simp [setKey, getKey, Ne.symm h]
    · simp [setKey, getKey, ha, ih]

theorem getKey_mem {α : Type} {d : List (String × α)} {k : String} {v : α}
    (h : getKey d k = some v) : (k, v) ∈ d := by
  induction d with
  | nil => simp [getKey] at h
  | cons p rest ih =>
    obtain ⟨a, b⟩ := p
    by_cases ha : a = k
    · subst ha
      simp [getKey] at h
      subst h
      exact List.mem_cons_self _ _
    · simp [getKey, ha] at h
      exact List.mem_cons_of_mem _ (ih h)

theorem setKey_setKey {α : Type} (d : List (String × α)) (k : String) (v v' : α) :
    setKey (setKey d k v) k v' = setKey d k v' := by
  induction d with
  | nil => simp [setKey]
  | cons p rest ih =>
    obtain ⟨a, b⟩ := p
    by_cases ha : a = k <;> simp [setKey, ha, ih]

theorem allWords_cons (p : String × PyVal) (d : Doc) :
    allWords (p :: d) = (bucketWords p.2 : Multiset String) + allWords d := by
  simp [allWords]

theorem allWords_setKey_some {d : Doc} {k : String} {v : PyVal} (w : PyVal)
    (h : getKey d k = some v) :
    allWords (setKey d k w) + (bucketWords v : Multiset String)
      = allWords d + (bucketWords w : Multiset String) := by
  induction d with
  | nil => simp [getKey] at h
  | cons p rest ih =>
    obtain ⟨a, b⟩ := p
    by_cases ha : a = k
    · subst ha
      simp [getKey] at h
      subst h
      simp [setKey, allWords_cons]
      abel
    · simp [getKey, ha] at h
      simp only [setKey, if_neg ha, allWords_cons]
      rw [add_assoc, add_assoc]
      exact congrArg _ (ih h)

theorem allWords_setKey_none {d : Doc} {k : String} (w : PyVal)
    (h : getKey d k = none) :
    allWords (setKey d k w) = allWords d + (bucketWords w : Multiset String) := by
  induction d with
  | nil => simp [setKey, allWords_cons, allWords]
  | cons p rest ih =>
    obtain ⟨a, b⟩ := p
    by_cases ha : a = k
    · subst ha
      simp [getKey] at h
    · simp [getKey, ha] at h
      simp only [setKey, if_neg ha, allWords_cons]
      rw [ih h, add_assoc]

theorem trier_noop_absent {d : Doc} {w cat : String} {sk : Bool}
    (h : getKey d "MotsNonTriés" = none) :
    trier_les_mots d w cat sk = some (d, none) := by
  simp [trier_les_mots, h]

theorem trier_noop_falsy {d : Doc} {w cat : String} {sk : Bool} {v : PyVal}
    (hU : getKey d "MotsNonTriés" = some v) (hT : pyTruthy v = false) :
    trier_les_mots d w cat sk = some (d, none) := by
  simp [trier_les_mots, hU, hT]

theorem trier_noop_not_mem {d : Doc} {w cat : String} {sk : Bool} {xs : List String}
    (hU : getKey d "MotsNonTriés" = some (PyVal.list xs)) (hw : w ∉ xs) :
    trier_les_mots d w cat sk = some (d, none) := by
  cases xs with
  | nil => simp [trier_les_mots, hU, pyTruthy]
  | cons a as => simp [trier_les_mots, hU, pyTruthy, pyIn, hw]

theorem trier_in_fail {d : Doc} {w cat : String} {sk : Bool} {v : PyVal}
    (hU : getKey d "MotsNonTriés" = some v) (hT : pyTruthy v = true)
    (hIn : pyIn w v = none) :
    trier_les_mots d w cat sk = none := by
  simp [trier_les_mots, hU, hT, hIn]

theorem trier_noop_in_false {d : Doc} {w cat : String} {sk : Bool} {v : PyVal}
    (hU : getKey d "MotsNonTriés" = some v) (hIn : pyIn w v = some false) :
    trier_les_mots d w cat sk = some (d, none) := by
  by_cases hT : pyTruthy v = false
  · exact trier_noop_falsy hU hT
  · simp [trier_les_mots, hU, hT, hIn]

theorem trier_remove_fail {d : Doc} {w cat : String} {sk : Bool} {v : PyVal}
    (hU : getKey d "MotsNonTriés" = some v) (hT : pyTruthy v = true)
    (hIn : pyIn w v = some true) (hR : pyRemove v w = none) :
    trier_les_mots d w cat sk = none := by
  simp [trier_les_mots, hU, hT, hIn, hR]

theorem pyRemove_eq_some {v v2 : PyVal} {x : String} (h : pyRemove v x = some v2) :
    ∃ xs, v = PyVal.list xs ∧ x ∈ xs ∧ v2 = PyVal.list (xs.erase x) := by
  cases v with
  | list xs =>
    by_cases hx : x ∈ xs
    · simp [pyRemove, hx] at h
      exact ⟨xs, rfl, hx, h.symm⟩
    · simp [pyRemove, hx] at h
  | dict ks => simp [pyRemove] at h
  | str s => simp [pyRemove] at h
  | num n => simp [pyRemove] at h
  | bool b => simp [pyRemove] at h
  | null => simp [pyRemove] at h

theorem trier_move_list {d : Doc} {w cat : String} {sk : Bool} {xs ys : List String}
    (hU : getKey d "MotsNonTriés" = some (PyVal.list xs)) (hw : w ∈ xs)
    (hcat : getKey (setKey d "MotsNonTriés" (PyVal.list (xs.erase w))) cat
      = some (PyVal.list ys)) :
    trier_les_mots d w cat sk =
      some (setKey (setKey d "MotsNonTriés" (PyVal.list (xs.erase w))) cat
        (PyVal.list (ys ++ [w])), some sk) := by
  obtain ⟨a, as, rfl⟩ : ∃ a as, xs = a :: as := by
    cases xs with
    | nil => simp at hw
    | cons a as => exact ⟨a, as, rfl⟩
  simp [trier_les_mots, hU, pyTruthy, pyIn, pyRemove, hw, hcat, pyAppend]

theorem trier_move_new {d : Doc} {w cat : String} {sk : Bool} {xs : List String}
    (hU : getKey d "MotsNonTriés" = some (PyVal.list xs)) (hw : w ∈ xs)
    (hcat : getKey (setKey d "MotsNonTriés" (PyVal.list (xs.erase w))) cat = none) :
    trier_les_mots d w cat sk =
      some (setKey (setKey d "MotsNonTriés" (PyVal.list (xs.erase w))) cat
        (PyVal.list [w]), some sk) := by
  obtain ⟨a, as, rfl⟩ : ∃ a as, xs = a :: as := by
    cases xs with
    | nil => simp at hw
    | cons a as => exact ⟨a, as, rfl⟩
  simp [trier_les_mots, hU, pyTruthy, pyIn, pyRemove, hw, hcat, pyAppend,
    getKey_setKey_self, setKey_setKey]

theorem trier_move_dict {d : Doc} {w cat : String} {sk : Bool} {xs : List String}
    {ks : List String}
    (hU : getKey d "MotsNonTriés" = some (PyVal.list xs)) (hw : w ∈ xs)
    (hcat : getKey (setKey d "MotsNonTriés" (PyVal.list (xs.erase w))) cat
      = some (PyVal.dict ks)) :
    trier_les_mots d w cat sk =
      some (setKey (setKey d "MotsNonTriés" (PyVal.list (xs.erase w))) cat
        (PyVal.list [w]), some sk) := by
  obtain ⟨a, as, rfl⟩ : ∃ a as, xs = a :: as := by
    cases xs with
    | nil => simp at hw
    | cons a as => exact ⟨a, as, rfl⟩
  simp [trier_les_mots, hU, pyTruthy, pyIn, pyRemove, hw, hcat, pyAppend,
    getKey_setKey_self, setKey_setKey]

theorem trier_move_stuck {d : Doc} {w cat : String} {sk : Bool} {xs : List String}
    {v : PyVal}
    (hU : getKey d "MotsNonTriés" = some (PyVal.list xs)) (hw : w ∈ xs)
    (hcat : getKey (setKey d "MotsNonTriés" (PyVal.list (xs.erase w))) cat = some v)
    (hv : pyAppend v w = none) (hnd : ∀ ks, v ≠ PyVal.dict ks) :
    trier_les_mots d w cat sk = none := by
  obtain ⟨a, as, rfl⟩ : ∃ a as, xs = a :: as := by
    cases xs with
    | nil => simp at hw
    | cons a as => exact ⟨a, as, rfl⟩
  cases v with
  | list zs => simp [pyAppend] at hv
  | dict ks => exact absurd rfl (hnd ks)
  | str s => simp [trier_les_mots, hU, pyTruthy, pyIn, pyRemove, hw, hcat, pyAppend]
  | num n => simp [trier_les_mots, hU, pyTruthy, pyIn, pyRemove, hw, hcat, pyAppend]
  | bool b => simp [trier_les_mots, hU, pyTruthy, pyIn, pyRemove, hw, hcat, pyAppend]
  | null => simp [trier_les_mots, hU, pyTruthy, pyIn, pyRemove, hw, hcat, pyAppend]

theorem trier_success_shape {d : Doc} {w cat : String} {sk : Bool} {xs : List String}
    {d' : Doc} {rep : Option Bool}
    (hU : getKey d "MotsNonTriés" = some (PyVal.list xs)) (hw : w ∈ xs)
    (hsucc : trier_les_mots d w cat sk = some (d', rep)) :
    rep = some sk ∧ ∃ zs, d' =
      setKey (setKey d "MotsNonTriés" (PyVal.list (xs.erase w))) cat
        (PyVal.list (zs ++ [w])) := by
  cases hcat : getKey (setKey d "MotsNonTriés" (PyVal.list (xs.erase w))) cat with
  | none =>
    rw [trier_move_new hU hw hcat] at hsucc
    obtain ⟨rfl, rfl⟩ : d' = _ ∧ rep = some sk := by
      refine ⟨?_, ?_⟩ <;> injection hsucc with h1 <;> [exact (congrArg Prod.fst h1).symm;
        exact (congrArg Prod.snd h1).symm]
    exact ⟨rfl, [], rfl⟩
  | some v =>
    cases v with
    | list ys =>
      rw [trier_move_list hU hw hcat] at hsucc
      obtain ⟨rfl, rfl⟩ : d' = _ ∧ rep = some sk := by
        refine ⟨?_, ?_⟩ <;> injection hsucc with h1 <;> [exact (congrArg Prod.fst h1).symm;
          exact (congrArg Prod.snd h1).symm]
      exact ⟨rfl, ys, rfl⟩
    | dict ks =>
      rw [trier_move_dict hU hw hcat] at hsucc
      obtain ⟨rfl, rfl⟩ : d' = _ ∧ rep = some sk := by
        refine ⟨?_, ?_⟩ <;> injection hsucc with h1 <;> [exact (congrArg Prod.fst h1).symm;
          exact (congrArg Prod.snd h1).symm]
      exact ⟨rfl, [], rfl⟩
    | str s =>
      rw [trier_move_stuck hU hw hcat rfl (by intro ks h; cases h)] at hsucc
      cases hsucc
    | num n =>
      rw [trier_move_stuck hU hw hcat rfl (by intro ks h; cases h)] at hsucc
      cases hsucc
    | bool b =>
      rw [trier_move_stuck hU hw hcat rfl (by intro ks h; cases h)] at hsucc
      cases hsucc
    | null =>
      rw [trier_move_stuck hU hw hcat rfl (by intro ks h; cases h)] at hsucc
      cases hsucc

/-- C1: for every document whose bucket values are all sequences, a single
`trier_les_mots` call succeeds and leaves the multiset union of all bucket
contents unchanged, so the total item count across all buckets is unchanged
(no duplication, no loss). -/
theorem C1_classify_conserves_words (d : Doc) (w cat : String) (sk : Bool)
    (hwf : ∀ p ∈ d, ∃ xs, p.2 = PyVal.list xs) :
    ∃ d' rep, trier_les_mots d w cat sk = some (d', rep) ∧
      allWords d' = allWords d ∧
      Multiset.card (allWords d') = Multiset.card (allWords d) := by
  cases hU : getKey d "MotsNonTriés" with
  | none => exact ⟨d, none, trier_noop_absent hU, rfl, rfl⟩
  | some v =>
    obtain ⟨xs, hxs⟩ := hwf _ (getKey_mem hU)
    simp only at hxs
    subst hxs
    by_cases hw : w ∈ xs
    · have hxsE : (xs : Multiset String)
          = ((xs.erase w : List String) : Multiset String) + {w} := by
        rw [Multiset.coe_eq_coe.mpr (List.perm_cons_erase hw), ← Multiset.cons_coe,
          ← Multiset.singleton_add, add_comm]
      have hA := allWords_setKey_some (d := d) (k := "MotsNonTriés")
        (PyVal.list (xs.erase w)) hU
      simp only [bucketWords] at hA
      have hA1 : allWords (setKey d "MotsNonTriés" (PyVal.list (xs.erase w))) + {w}
          = allWords d := by
        have h2 : allWords (setKey d "MotsNonTriés" (PyVal.list (xs.erase w))) + {w}
              + ((xs.erase w : List String) : Multiset String)
            = allWords d + ((xs.erase w : List String) : Multiset String) := by
          calc allWords (setKey d "MotsNonTriés" (PyVal.list (xs.erase w))) + {w}
                + ((xs.erase w : List String) : Multiset String)
              = allWords (setKey d "MotsNonTriés" (PyVal.list (xs.erase w)))
                + (xs : Multiset String) := by rw [hxsE]; abel
            _ = allWords d + ((xs.erase w : List String) : Multiset String) := hA
        exact add_right_cancel h2
      cases hcat : getKey (setKey d "MotsNonTriés" (PyVal.list (xs.erase w))) cat with
      | none =>
        have hEq : allWords (setKey (setKey d "MotsNonTriés" (PyVal.list (xs.erase w)))
            cat (PyVal.list [w])) = allWords d := by
          rw [allWords_setKey_none (PyVal.list [w]) hcat]
          simp only [bucketWords, Multiset.coe_singleton]
          exact hA1
        exact ⟨_, some sk, trier_move_new hU hw hcat, hEq, by rw [hEq]⟩
      | some u =>
        have hu : ∃ ys, u = PyVal.list ys := by
          by_cases hc : cat = "MotsNonTriés"
          · subst hc
            rw [getKey_setKey_self] at hcat
            injection hcat with h
            exact ⟨_, h.symm⟩
          · rw [getKey_setKey_ne _ _ _ _ hc] at hcat
            obtain ⟨ys, hys⟩ := hwf _ (getKey_mem hcat)
            exact ⟨ys, hys⟩
        obtain ⟨ys, rfl⟩ := hu
        have hB := allWords_setKey_some
          (d := setKey d "MotsNonTriés" (PyVal.list (xs.erase w))) (k := cat)
          (PyVal.list (ys ++ [w])) hcat
        simp only [bucketWords] at hB
        have hEq : allWords (setKey (setKey d "MotsNonTriés" (PyVal.list (xs.erase w)))
            cat (PyVal.list (ys ++ [w]))) = allWords d := by
          have h3 : allWords (setKey (setKey d "MotsNonTriés" (PyVal.list (xs.erase w)))
                cat (PyVal.list (ys ++ [w]))) + (ys : Multiset String)
              = allWords d + (ys : Multiset String) := by
            calc allWords (setKey (setKey d "MotsNonTriés" (PyVal.list (xs.erase w)))
                  cat (PyVal.list (ys ++ [w]))) + (ys : Multiset String)
                = allWords (setKey d "MotsNonTriés" (PyVal.list (xs.erase w)))
                  + ((ys ++ [w] : List String) : Multiset String) := hB
              _ = allWords (setKey d "MotsNonTriés" (PyVal.list (xs.erase w)))
                  + ((ys : Multiset String) + {w}) := by
                    rw [← Multiset.coe_add, Multiset.coe_singleton]
              _ = (allWords (setKey d "MotsNonTriés" (PyVal.list (xs.erase w))) + {w})
                  + (ys : Multiset String) := by abel
              _ = allWords d + (ys : Multiset String) := by rw [hA1]
          exact add_right_cancel h3
        exact ⟨_, some sk, trier_move_list hU hw hcat, hEq, by rw [hEq]⟩
    · exact ⟨d, none, trier_noop_not_mem hU hw, rfl, rfl⟩

theorem C1_classify_conserves_words_witness :
    ∃ d' rep,
      trier_les_mots [("MotsNonTriés", PyVal.list ["chat", "vélo"]),
        ("Classique", PyVal.list [])] "chat" "Classique" true = some (d', rep) ∧
      allWords d' = allWords [("MotsNonTriés", PyVal.list ["chat", "vélo"]),
        ("Classique", PyVal.list [])] ∧
      Multiset.card (allWords d')
        = Multiset.card (allWords [("MotsNonTriés", PyVal.list ["chat", "vélo"]),
            ("Classique", PyVal.list [])]) :=
  C1_classify_conserves_words _ "chat" "Classique" true (by
    intro p hp
    simp only [List.mem_cons, List.not_mem_nil, or_false] at hp
    rcases hp with rfl | rfl <;> exact ⟨_, rfl⟩)

/-- C2 (amended): `trier_les_mots` is a no-op whenever the word is not present
in the unsorted bucket — in particular when the unsorted bucket is empty — and
calling it twice in sequence moves the word only once, the second call leaving
the document unchanged, provided the word occurs at most once in the unsorted
bucket and the destination is not the unsorted bucket itself. -/
theorem C2_noop_and_idempotent (d : Doc) (w cat : String) (sk : Bool) :
    ((∀ v, getKey d "MotsNonTriés" = some v → ∃ xs, v = PyVal.list xs ∧ w ∉ xs) →
      trier_les_mots d w cat sk = some (d, none)) ∧
    (∀ xs d1 rep, getKey d "MotsNonTriés" = some (PyVal.list xs) →
      List.count w xs ≤ 1 → cat ≠ "MotsNonTriés" →
      trier_les_mots d w cat sk = some (d1, rep) →
      trier_les_mots d1 w cat sk = some (d1, none)) := by
  constructor
  · intro h
    cases hU : getKey d "MotsNonTriés" with
    | none => exact trier_noop_absent hU
    | some v =>
      obtain ⟨xs, rfl, hw⟩ := h v hU
      exact trier_noop_not_mem hU hw
  · intro xs d1 rep hU hcount hcat hsucc
    by_cases hw : w ∈ xs
    · obtain ⟨-, zs, rfl⟩ := trier_success_shape hU hw hsucc
      have hU1 : getKey (setKey (setKey d "MotsNonTriés" (PyVal.list (xs.erase w))) cat
          (PyVal.list (zs ++ [w]))) "MotsNonTriés" = some (PyVal.list (xs.erase w)) := by
        rw [getKey_setKey_ne _ cat "MotsNonTriés" _ (Ne.symm hcat), getKey_setKey_self]
      have hw1 : w ∉ xs.erase w := by
        intro hmem
        have h1 : 0 < List.count w (xs.erase w) := List.count_pos_iff.mpr hmem
        rw [List.count_erase_self] at h1
        omega
      exact trier_noop_not_mem hU1 hw1
    · rw [trier_noop_not_mem hU hw] at hsucc
      injection hsucc with h
      obtain rfl : d1 = d := (congrArg Prod.fst h).symm
      exact trier_noop_not_mem hU hw

theorem C2_noop_and_idempotent_witness :
    trier_les_mots [("MotsNonTriés", PyVal.list ["x"])] "a" "Classique" true
      = some ([("MotsNonTriés", PyVal.list ["x"])], none) ∧
    trier_les_mots [("MotsNonTriés", PyVal.list []), ("Classique", PyVal.list ["a"])]
      "a" "Classique" true
      = some ([("MotsNonTriés", PyVal.list []), ("Classique", PyVal.list ["a"])], none) := by
  constructor
  · exact (C2_noop_and_idempotent [("MotsNonTriés", PyVal.list ["x"])] "a" "Classique"
      true).1 (by
        intro v hv
        have h0 : getKey [("MotsNonTriés", PyVal.list ["x"])] "MotsNonTriés"
            = some (PyVal.list ["x"]) := by decide
        rw [h0] at hv
        injection hv with h1
        exact ⟨["x"], h1.symm, by decide⟩)
  · exact (C2_noop_and_idempotent [("MotsNonTriés", PyVal.list ["a"])] "a" "Classique"
      true).2 ["a"] [("MotsNonTriés", PyVal.list []), ("Classique", PyVal.list ["a"])]
      (some true) (by decide) (by decide) (by decide) (by decide)

/-- C2 (counterexample): when the word occurs twice in the unsorted bucket the
second of two consecutive `trier_les_mots` calls is not a no-op: it moves the
word again and changes the document. -/
theorem C2_counterexample :
    trier_les_mots [("MotsNonTriés", PyVal.list ["a", "a"])] "a" "Classique" true
      = some ([("MotsNonTriés", PyVal.list ["a"]), ("Classique", PyVal.list ["a"])],
          some true) ∧
    trier_les_mots [("MotsNonTriés", PyVal.list ["a"]), ("Classique", PyVal.list ["a"])]
      "a" "Classique" true
      = some ([("MotsNonTriés", PyVal.list []), ("Classique", PyVal.list ["a", "a"])],
          some true) ∧
    ([("MotsNonTriés", PyVal.list []), ("Classique", PyVal.list ["a", "a"])] : Doc)
      ≠ [("MotsNonTriés", PyVal.list ["a"]), ("Classique", PyVal.list ["a"])] := by
  exact ⟨by decide, by decide, by decide⟩

/-- C3 (amended): before appending, `trier_les_mots` replaces a destination
bucket holding a dict value with an empty sequence and creates an absent
bucket; whenever the destination value is absent, a sequence, or a dict, the
append succeeds and afterwards the destination bucket is a sequence whose last
element is the classified word.  (For other non-sequence shapes the call
fails; see the counterexample.) -/
theorem C3_append_amended (d : Doc) (w cat : String) (sk : Bool) (xs : List String)
    (hU : getKey d "MotsNonTriés" = some (PyVal.list xs)) (hw : w ∈ xs)
    (hshape : ∀ v, getKey d cat = some v →
      (∃ ys, v = PyVal.list ys) ∨ (∃ ks, v = PyVal.dict ks)) :
    ∃ d' ys, trier_les_mots d w cat sk = some (d', some sk) ∧
      getKey d' cat = some (PyVal.list ys) ∧ ys.getLast? = some w := by
  cases hcat : getKey (setKey d "MotsNonTriés" (PyVal.list (xs.erase w))) cat with
  | none =>
    exact ⟨_, [w], trier_move_new hU hw hcat, getKey_setKey_self _ _ _, rfl⟩
  | some u =>
    have hu : (∃ ys, u = PyVal.list ys) ∨ (∃ ks, u = PyVal.dict ks) := by
      by_cases hc : cat = "MotsNonTriés"
      · subst hc
        rw [getKey_setKey_self] at hcat
        injection hcat with h
        exact Or.inl ⟨_, h.symm⟩
      · rw [getKey_setKey_ne _ _ _ _ hc] at hcat
        exact hshape u hcat
    rcases hu with ⟨ys, rfl⟩ | ⟨ks, rfl⟩
    · exact ⟨_, ys ++ [w], trier_move_list hU hw hcat, getKey_setKey_self _ _ _,
        List.getLast?_concat _⟩
    · exact ⟨_, [w], trier_move_dict hU hw hcat, getKey_setKey_self _ _ _, rfl⟩

theorem C3_append_amended_witness :
    ∃ d' ys,
      trier_les_mots [("MotsNonTriés", PyVal.list ["a"]), ("Rejeté", PyVal.dict ["legacy"])]
        "a" "Rejeté" true = some (d', some true) ∧
      getKey d' "Rejeté" = some (PyVal.list ys) ∧ ys.getLast? = some "a" :=
  C3_append_amended _ "a" "Rejeté" true ["a"] (by decide) (by decide) (by
    intro v hv
    have h0 : getKey [("MotsNonTriés", PyVal.list ["a"]),
        ("Rejeté", PyVal.dict ["legacy"])] "Rejeté" = some (PyVal.dict ["legacy"]) := by
      decide
    rw [h0] at hv
    injection hv with h1
    exact Or.inr ⟨["legacy"], h1.symm⟩)

/-- C3 (counterexample): a destination bucket holding a string — a
non-sequence value that is not a dict — is not normalized; the append step
raises instead of succeeding, refuting the claim for that prior shape. -/
theorem C3_counterexample :
    trier_les_mots [("MotsNonTriés", PyVal.list ["a"]), ("Rejeté", PyVal.str "not-a-list")]
      "a" "Rejeté" true = none := by
  decide

theorem voir_total_eq_fixed (d : Doc) :
    (CATEGORIES.map fun cat =>
      match (getKey d cat).getD (PyVal.list []) with
      | PyVal.list xs => xs.length
      | _ => 0).sum = classified_count_fixed d := by
  unfold classified_count_fixed
  congr 1
  apply List.map_congr_left
  intro cat _
  cases h : getKey d cat with
  | none => rfl
  | some v => cases v <;> rfl

/-- C4 (amended): the summary returns the length of the unsorted bucket (0
when absent), a classified count that sums the lengths of the four fixed
category buckets whose value is a sequence — non-sequence values are excluded
without an error, and buckets outside the fixed category set are not counted —
and the total is their sum. -/
theorem C4_summary (d : Doc) (u : Nat)
    (hU : getKey d "MotsNonTriés" = none ∧ u = 0 ∨
      ∃ xs, getKey d "MotsNonTriés" = some (PyVal.list xs) ∧ u = xs.length) :
    voir_mots_tries d = some (u, classified_count_fixed d, u + classified_count_fixed d) := by
  rcases hU with ⟨h0, rfl⟩ | ⟨xs, h0, rfl⟩ <;>
    simp only [voir_mots_tries, h0, Option.getD_none, Option.getD_some, pyLen,
      voir_total_eq_fixed, List.length_nil]

theorem C4_summary_witness :
    voir_mots_tries [("MotsNonTriés", PyVal.list ["a"]), ("Classique", PyVal.list ["b", "c"]),
      ("Rejeté", PyVal.str "not-a-list")] = some (1, 2, 3) := by
  rw [C4_summary _ 1 (Or.inr ⟨["a"], by decide, rfl⟩)]
  decide

/-- C4 (counterexample): a non-empty bucket outside the fixed category set is
not counted by the summary, although the claim's formula — the sum over all
non-unsorted sequence buckets — counts it. -/
theorem C4_counterexample :
    voir_mots_tries [("MotsNonTriés", PyVal.list []), ("Extra", PyVal.list ["x", "y"])]
      = some (0, 0, 0) ∧
    spec_classified_count [("MotsNonTriés", PyVal.list []), ("Extra", PyVal.list ["x", "y"])]
      = 2 :=
  ⟨by decide, by decide⟩

/-- C5 (amended): `fetch_gist_data` strips surrounding whitespace and one
leading byte-order mark from the fetched content and JSON-parses the result;
any content whose cleaned form is valid JSON parses successfully.  Interior
non-breaking spaces are not normalized (see the counterexample). -/
theorem C5_load_parses_cleaned (gist_id github_token : String) (content : List Char)
    (hid : gist_id ≠ "") (htok : github_token ≠ "")
    (hvalid : json_valid (clean_content content) = true) :
    fetch_gist_data gist_id github_token (RemoteResp.ok [(GIST_FILENAME, content)])
      = FetchResult.parsed (clean_content content) := by
  unfold fetch_gist_data
  rw [if_neg (by simp [hid, htok])]
  simp [getKey, hvalid]

theorem C5_load_parses_cleaned_witness :
    fetch_gist_data "gid" "tok"
      (RemoteResp.ok [(GIST_FILENAME, "﻿\x7b\"unsorted\":[]\x7d".data)])
      = FetchResult.parsed ("\x7b\"unsorted\":[]\x7d".data) :=
  (C5_load_parses_cleaned "gid" "tok" "﻿\x7b\"unsorted\":[]\x7d".data
    (by decide) (by decide) (by decide)).trans (by decide)

/-- C5 (counterexample): content with an interior non-breaking space fails to
parse, although its cleaned form in the claim's sense — with non-breaking
spaces normalized to regular spaces — is valid JSON. -/
theorem C5_counterexample :
    json_valid (spec_cleaned "\x7b\"unsorted\": []\x7d".data) = true ∧
    fetch_gist_data "gid" "tok"
      (RemoteResp.ok [(GIST_FILENAME, "\x7b\"unsorted\": []\x7d".data)])
      = FetchResult.parseError :=
  ⟨by decide, by decide⟩

/-- C6: when the remote save fails, the transition is reported as failed, but
the in-memory document already reflects the mutation — the word removed from
the unsorted bucket and appended to the destination — and equals the document
a successful save would produce: no rollback happens. -/
theorem C6_save_failure_keeps_mutation (d : Doc) (w cat : String) (xs : List String)
    (hU : getKey d "MotsNonTriés" = some (PyVal.list xs)) (hw : w ∈ xs)
    (hcat : cat ≠ "MotsNonTriés")
    (hshape : ∀ v, getKey d cat = some v →
      (∃ ys, v = PyVal.list ys) ∨ (∃ ks, v = PyVal.dict ks)) :
    ∃ d' ys, trier_les_mots d w cat false = some (d', some false) ∧
      trier_les_mots d w cat true = some (d', some true) ∧
      getKey d' "MotsNonTriés" = some (PyVal.list (xs.erase w)) ∧
      getKey d' cat = some (PyVal.list (ys ++ [w])) := by
  cases hc : getKey (setKey d "MotsNonTriés" (PyVal.list (xs.erase w))) cat with
  | none =>
    refine ⟨_, [], trier_move_new hU hw hc, trier_move_new hU hw hc, ?_, ?_⟩
    · rw [getKey_setKey_ne _ _ _ _ (Ne.symm hcat), getKey_setKey_self]
    · rw [getKey_setKey_self]
      rfl
  | some u =>
    have hd : getKey d cat = some u := by
      rw [← getKey_setKey_ne d "MotsNonTriés" cat (PyVal.list (xs.erase w)) hcat]
      exact hc
    rcases hshape u hd with ⟨ys, rfl⟩ | ⟨ks, rfl⟩
    · refine ⟨_, ys, trier_move_list hU hw hc, trier_move_list hU hw hc, ?_,
        getKey_setKey_self _ _ _⟩
      rw [getKey_setKey_ne _ _ _ _ (Ne.symm hcat), getKey_setKey_self]
    · refine ⟨_, [], trier_move_dict hU hw hc, trier_move_dict hU hw hc, ?_, ?_⟩
      · rw [getKey_setKey_ne _ _ _ _ (Ne.symm hcat), getKey_setKey_self]
      · rw [getKey_setKey_self]
        rfl

theorem C6_save_failure_keeps_mutation_witness :
    ∃ d' ys,
      trier_les_mots [("MotsNonTriés", PyVal.list ["chat", "vélo"]),
        ("Classique", PyVal.list [])] "chat" "Classique" false = some (d', some false) ∧
      trier_les_mots [("MotsNonTriés", PyVal.list ["chat", "vélo"]),
        ("Classique", PyVal.list [])] "chat" "Classique" true = some (d', some true) ∧
      getKey d' "MotsNonTriés" = some (PyVal.list (["chat", "vélo"].erase "chat")) ∧
      getKey d' "Classique" = some (PyVal.list (ys ++ ["chat"])) :=
  C6_save_failure_keeps_mutation _ "chat" "Classique" ["chat", "vélo"]
    (by decide) (by decide) (by decide) (by
      intro v hv
      have h0 : getKey [("MotsNonTriés", PyVal.list ["chat", "vélo"]),
          ("Classique", PyVal.list [])] "Classique" = some (PyVal.list []) := by decide
      rw [h0] at hv
      injection hv with h1
      exact Or.inl ⟨[], h1.symm⟩)

/-- C7: the transition performs no validation of the destination bucket name
against the fixed category set: a destination outside the enumerated set is
accepted, the bucket is created, and the word is appended to it. -/
theorem C7_any_bucket_accepted (d : Doc) (w cat : String) (sk : Bool) (xs : List String)
    (hU : getKey d "MotsNonTriés" = some (PyVal.list xs)) (hw : w ∈ xs)
    (hnotcat : cat ∉ CATEGORIES) (habs : getKey d cat = none) :
    ∃ d', trier_les_mots d w cat sk = some (d', some sk) ∧
      getKey d' cat = some (PyVal.list [w]) := by
  have hcatne : cat ≠ "MotsNonTriés" := by
    intro h
    rw [h] at habs
    rw [habs] at hU
    cases hU
  have hc : getKey (setKey d "MotsNonTriés" (PyVal.list (xs.erase w))) cat = none := by
    rw [getKey_setKey_ne _ _ _ _ hcatne]
    exact habs
  exact ⟨_, trier_move_new hU hw hc, getKey_setKey_self _ _ _⟩

theorem C7_any_bucket_accepted_witness :
    ∃ d', trier_les_mots [("MotsNonTriés", PyVal.list ["a"])] "a" "Inconnu" true
        = some (d', some true) ∧
      getKey d' "Inconnu" = some (PyVal.list ["a"]) :=
  C7_any_bucket_accepted _ "a" "Inconnu" true ["a"] (by decide) (by decide)
    (by decide) (by decide)

/-- C8: with the document identifier or the access token absent (the empty
string, the configured default), `fetch_gist_data` returns the
configuration-missing failure and `update_gist_data` reports failure,
whatever the remote outcome would have been: no remote call is attempted. -/
theorem C8_config_missing (gist_id github_token : String)
    (h : gist_id = "" ∨ github_token = "") :
    (∀ response, fetch_gist_data gist_id github_token response
        = FetchResult.configMissing) ∧
    (∀ (d : Doc) (patch_ok : Bool),
        update_gist_data gist_id github_token d patch_ok = false) := by
  constructor
  · intro response
    unfold fetch_gist_data
    rw [if_pos h]
  · intro d p
    unfold update_gist_data
    rw [if_pos h]

theorem C8_config_missing_witness :
    fetch_gist_data "" "tok" RemoteResp.httpError = FetchResult.configMissing ∧
    update_gist_data "" "tok" [] true = false :=
  ⟨(C8_config_missing "" "tok" (Or.inl rfl)).1 _,
    (C8_config_missing "" "tok" (Or.inl rfl)).2 _ _⟩

/-- C9: the transition modifies at most the unsorted bucket and the chosen
destination bucket; every other key of the document keeps its value. -/
theorem C9_frame (d : Doc) (w cat : String) (sk : Bool) (d' : Doc) (rep : Option Bool)
    (k : String) (hsucc : trier_les_mots d w cat sk = some (d', rep))
    (hk1 : k ≠ "MotsNonTriés") (hk2 : k ≠ cat) :
    getKey d' k = getKey d k := by
  cases hU : getKey d "MotsNonTriés" with
  | none =>
    rw [trier_noop_absent hU] at hsucc
    injection hsucc with h
    obtain rfl : d' = d := (congrArg Prod.fst h).symm
    rfl
  | some v =>
    cases hT : pyTruthy v with
    | false =>
      rw [trier_noop_falsy hU hT] at hsucc
      injection hsucc with h
      obtain rfl : d' = d := (congrArg Prod.fst h).symm
      rfl
    | true =>
      cases hIn : pyIn w v with
      | none =>
        rw [trier_in_fail hU hT hIn] at hsucc
        cases hsucc
      | some b =>
        cases b with
        | false =>
          rw [trier_noop_in_false hU hIn] at hsucc
          injection hsucc with h
          obtain rfl : d' = d := (congrArg Prod.fst h).symm
          rfl
        | true =>
          cases hR : pyRemove v w with
          | none =>
            rw [trier_remove_fail hU hT hIn hR] at hsucc
            cases hsucc
          | some v2 =>
            obtain ⟨xs, rfl, hw, rfl⟩ := pyRemove_eq_some hR
            obtain ⟨-, zs, rfl⟩ := trier_success_shape hU hw hsucc
            rw [getKey_setKey_ne _ _ _ _ hk2, getKey_setKey_ne _ _ _ _ hk1]

theorem C9_frame_witness :
    getKey [("MotsNonTriés", PyVal.list []), ("Autre", PyVal.list ["z"]),
      ("Classique", PyVal.list ["a"])] "Autre"
      = getKey [("MotsNonTriés", PyVal.list ["a"]), ("Autre", PyVal.list ["z"])] "Autre" :=
  C9_frame [("MotsNonTriés", PyVal.list ["a"]), ("Autre", PyVal.list ["z"])] "a"
    "Classique" true _ (some true) "Autre" (by decide) (by decide) (by decide)

/-- C10: when the word occurs more than once in the unsorted bucket, a single
successful transition removes exactly the first occurrence: the remaining
occurrences are still there and the relative order of all other words is
preserved. -/
theorem C10_removes_first_occurrence (d : Doc) (w cat : String) (sk : Bool)
    (xs : List String) (d' : Doc) (rep : Option Bool)
    (hU : getKey d "MotsNonTriés" = some (PyVal.list xs))
    (hcount : 1 < List.count w xs) (hcat : cat ≠ "MotsNonTriés")
    (hsucc : trier_les_mots d w cat sk = some (d', rep)) :
    ∃ l₁ l₂, xs = l₁ ++ w :: l₂ ∧ w ∉ l₁ ∧
      getKey d' "MotsNonTriés" = some (PyVal.list (l₁ ++ l₂)) ∧ w ∈ l₂ := by
  have hw : w ∈ xs := List.count_pos_iff.mp (by omega)
  obtain ⟨-, zs, rfl⟩ := trier_success_shape hU hw hsucc
  obtain ⟨l₁, l₂, hnotin, hxs, herase⟩ := List.exists_erase_eq hw
  refine ⟨l₁, l₂, hxs, hnotin, ?_, ?_⟩
  · rw [getKey_setKey_ne _ _ _ _ (Ne.symm hcat), getKey_setKey_self, herase]
  · have h0 : List.count w l₁ = 0 := List.count_eq_zero_of_not_mem hnotin
    have hxc : List.count w xs = List.count w l₁ + (List.count w l₂ + 1) := by
      rw [hxs, List.count_append, List.count_cons_self]
    exact List.count_pos_iff.mp (by omega)

theorem C10_removes_first_occurrence_witness :
    ∃ l₁ l₂, ["a", "b", "a"] = l₁ ++ "a" :: l₂ ∧ "a" ∉ l₁ ∧
      getKey [("MotsNonTriés", PyVal.list ["b", "a"]), ("Classique", PyVal.list ["a"])]
        "MotsNonTriés" = some (PyVal.list (l₁ ++ l₂)) ∧ "a" ∈ l₂ :=
  C10_removes_first_occurrence [("MotsNonTriés", PyVal.list ["a", "b", "a"])] "a"
    "Classique" true ["a", "b", "a"] _ (some true) (by decide) (by decide) (by decide)
    (by decide)
